import Mathlib

/-!
Shallow embedding of the send-carbide client (`main.go`): a single-shot
gcode-file transfer over a line-based handshake protocol.

Bytes on the wire are modelled as `Char` (the protocol alphabet is ASCII;
each `Char` stands for one byte).  A single invocation of the underlying
`Read` either fails or delivers a chunk of bytes; it is modelled as
`Except GoErr (List Char)`.  `strings.ToUpper`, `strings.ToLower` and
`strings.TrimSpace` are modelled at their ASCII behaviour, which coincides
with Go on the protocol alphabet.
-/

/-- Errors produced by the protocol code of `main.go`. -/
inductive GoErr : Type where
  /-- an error surfaced by the underlying `Read` on the connection -/
  | ioError : GoErr
  /-- `errors.New("oversized message")` in `readMessage` -/
  | oversizedMessage : GoErr
  /-- `errInvalidStatusMessage` in `getState` -/
  | invalidStatusMessage : GoErr
deriving DecidableEq, Repr

/-- `const terminationCharacter = '\x0a'` (main.go line 17): ASCII line feed. -/
def terminationCharacter : Char := '\x0a'

/-- `const messageBufferSize = 128` (main.go line 18). -/
def messageBufferSize : Nat := 128

/-- The scan loop of `readMessage` (main.go lines 132-138): walk the `n`
bytes delivered by the read, appending each byte to the output buffer until
the termination character is found (the terminator itself and everything
after it are dropped). -/
def collectUntilTerm : List Char → List Char
  | [] => []
  | b :: rest =>
    if b = terminationCharacter then []
    else b :: collectUntilTerm rest

/-- `readMessage` (main.go lines 124-144).  The argument is the outcome of
the single underlying `r.Read(buffer)` call: an error, or the chunk of bytes
it delivered (at most `messageBufferSize` bytes for a real reader, since the
buffer has that capacity).  On a read error the bytes are dropped and the
error is returned; otherwise the chunk is scanned up to the first
terminator, and the collected output is rejected as oversized when its
length reaches `messageBufferSize`. -/
def readMessage (readResult : Except GoErr (List Char)) :
    Except GoErr (List Char) :=
  match readResult with
  | .error e => .error e
  | .ok chunk =>
    let outputBuffer := collectUntilTerm chunk
    if messageBufferSize ≤ outputBuffer.length then
      .error .oversizedMessage
    else
      .ok outputBuffer

/-- Go `strings.Split(s, " ")` for the one-character separator `" "`:
splits at every space, keeping empty fields; the empty string yields
`[[]]`. -/
def splitOnSpace : List Char → List (List Char)
  | [] => [[]]
  | c :: rest =>
    if c = ' ' then [] :: splitOnSpace rest
    else
      match splitOnSpace rest with
      | [] => [[c]]
      | t :: ts => (c :: t) :: ts

/-- Go `unicode.IsSpace` restricted to the Latin-1 range (space, tab, line
feed, vertical tab, form feed, carriage return, NEL, no-break space). -/
def isGoSpace (c : Char) : Bool :=
  c = ' ' || c = '\x09' || c = '\x0a' || c = '\x0b' || c = '\x0c' ||
  c = '\x0d' || c = '\u0085' || c = '\u00A0'

/-- Go `strings.TrimSpace`: drop leading and trailing whitespace. -/
def trimSpace (l : List Char) : List Char :=
  ((l.dropWhile isGoSpace).reverse.dropWhile isGoSpace).reverse

/-- Go `strings.ToUpper` at its ASCII behaviour. -/
def goToUpper (l : List Char) : List Char := l.map Char.toUpper

/-- Go `strings.ToLower` at its ASCII behaviour. -/
def goToLower (l : List Char) : List Char := l.map Char.toLower

/-- The parsing part of `getState` (main.go lines 154-163): split the
status line on the single space character, require exactly two tokens,
require the first token upper-cased to equal `STATE:`, and return the
second token trimmed and lower-cased. -/
def parseStatusLine (statusLine : List Char) : Except GoErr (List Char) :=
  match splitOnSpace statusLine with
  | [t0, t1] =>
    if goToUpper t0 = "STATE:".toList then
      .ok (goToLower (trimSpace t1))
    else
      .error .invalidStatusMessage
  | _ => .error .invalidStatusMessage

/-- `getState` (main.go lines 148-164): frame one message with
`readMessage`, then parse it as a status line. -/
def getState (readResult : Except GoErr (List Char)) :
    Except GoErr (List Char) :=
  match readMessage readResult with
  | .error e => .error e
  | .ok statusLine => parseStatusLine statusLine

/-! ## Lemmas about the framer scan -/

theorem collectUntilTerm_append_term (pre rest : List Char)
    (hp : terminationCharacter ∉ pre) :
    collectUntilTerm (pre ++ terminationCharacter :: rest) = pre := by
  induction pre with
  | nil => simp [collectUntilTerm]
  | cons b bs ih =>
    have hb : b ≠ terminationCharacter := fun h => hp (h ▸ List.mem_cons_self b bs)
    have hbs : terminationCharacter ∉ bs := fun h => hp (List.mem_cons_of_mem b h)
    simp [collectUntilTerm, hb, ih hbs]

theorem collectUntilTerm_no_term (chunk : List Char)
    (h : terminationCharacter ∉ chunk) :
    collectUntilTerm chunk = chunk := by
  induction chunk with
  | nil => rfl
  | cons b bs ih =>
    have hb : b ≠ terminationCharacter := fun hb => h (hb ▸ List.mem_cons_self b bs)
    have hbs : terminationCharacter ∉ bs := fun hm => h (List.mem_cons_of_mem b hm)
    simp [collectUntilTerm, hb, ih hbs]

/-! ## Claims about the Message Framer -/

/-- Claim C4: for every byte sequence shorter than the maximum buffer size
(128 bytes) and terminated by the line-feed terminator byte, delivered by a
single underlying read, `readMessage` succeeds and returns exactly the
bytes preceding the first terminator, unchanged; the terminator is
discarded and any bytes following it within the same read are ignored. -/
theorem readMessage_terminated (pre rest : List Char)
    (hp : terminationCharacter ∉ pre)
    (hlen : (pre ++ terminationCharacter :: rest).length < messageBufferSize) :
    readMessage (.ok (pre ++ terminationCharacter :: rest)) = .ok pre := by
  have hc := collectUntilTerm_append_term pre rest hp
  have hpre : pre.length < messageBufferSize := by
    have hle : pre.length ≤ (pre ++ terminationCharacter :: rest).length := by
      simp [List.length_append]
    omega
  simp [readMessage, hc, Nat.not_le.mpr hpre]

/-- Witness for C4 at a concrete input: the frame `STATE: init` followed by
the terminator and a trailing byte. -/
theorem readMessage_terminated_witness :
    readMessage (.ok ("STATE: init".toList ++ terminationCharacter :: ['X'])) =
      .ok "STATE: init".toList :=
  readMessage_terminated "STATE: init".toList ['X'] (by decide) (by decide)

/-- Claim C5: for every byte sequence at or above the maximum buffer size
(128 bytes) containing no terminator byte, `readMessage` fails with the
oversized-message error and the content read is dropped. -/
theorem readMessage_oversized (chunk : List Char)
    (hterm : terminationCharacter ∉ chunk)
    (hlen : messageBufferSize ≤ chunk.length) :
    readMessage (.ok chunk) = .error .oversizedMessage := by
  simp [readMessage, collectUntilTerm_no_term chunk hterm, hlen]

/-- Witness for C5 at a concrete input: 128 copies of the byte `a`. -/
theorem readMessage_oversized_witness :
    readMessage (.ok (List.replicate 128 'a')) = .error .oversizedMessage :=
  readMessage_oversized (List.replicate 128 'a')
    (by simp [List.mem_replicate, terminationCharacter])
    (by simp [messageBufferSize])

/-- Claim C9: if the single underlying read returns `n` bytes with
`0 < n < 128` and none of them is the terminator byte, `readMessage`
returns all `n` bytes as a successful frame rather than signaling any
error: a message split across reads is silently truncated and accepted as
complete. -/
theorem readMessage_truncated (chunk : List Char)
    (_hpos : 0 < chunk.length)
    (hlen : chunk.length < messageBufferSize)
    (hterm : terminationCharacter ∉ chunk) :
    readMessage (.ok chunk) = .ok chunk := by
  simp [readMessage, collectUntilTerm_no_term chunk hterm, Nat.not_le.mpr hlen]

/-- Witness for C9 at a concrete input: the bytes `GCODE_` with no
terminator are accepted as a complete frame. -/
theorem readMessage_truncated_witness :
    readMessage (.ok "GCODE_".toList) = .ok "GCODE_".toList :=
  readMessage_truncated "GCODE_".toList (by decide) (by decide) (by decide)

/-- Claim C10: every frame returned successfully by `readMessage` has
length strictly below the maximum buffer size of 128 bytes. -/
theorem readMessage_frame_small (readResult : Except GoErr (List Char))
    (frame : List Char)
    (h : readMessage readResult = .ok frame) :
    frame.length < messageBufferSize := by
  match readResult with
  | .error e => simp [readMessage] at h
  | .ok chunk =>
    by_cases hle : messageBufferSize ≤ (collectUntilTerm chunk).length
    · simp [readMessage, hle] at h
    · have hlt := Nat.not_le.mp hle
      simp only [readMessage, if_neg hle, Except.ok.injEq] at h
      exact h ▸ hlt

/-- Witness for C10 at a concrete input. -/
theorem readMessage_frame_small_witness :
    ("hi".toList).length < messageBufferSize :=
  readMessage_frame_small (.ok "hi\x0aZZ".toList) "hi".toList (by rfl)

/-! ## Lemmas about the status-line split and trim -/

theorem splitOnSpace_no_space (s : List Char) (h : ' ' ∉ s) :
    splitOnSpace s = [s] := by
  induction s with
  | nil => rfl
  | cons c cs ih =>
    have hc : c ≠ ' ' := fun hc => h (hc ▸ List.mem_cons_self c cs)
    have hcs : ' ' ∉ cs := fun hm => h (List.mem_cons_of_mem c hm)
    simp [splitOnSpace, hc, ih hcs]

theorem splitOnSpace_key (k s : List Char) (hk : ' ' ∉ k) :
    splitOnSpace (k ++ ' ' :: s) = k :: splitOnSpace s := by
  induction k with
  | nil => simp [splitOnSpace]
  | cons c cs ih =>
    have hc : c ≠ ' ' := fun hc => hk (hc ▸ List.mem_cons_self c cs)
    have hcs : ' ' ∉ cs := fun hm => hk (List.mem_cons_of_mem c hm)
    simp [splitOnSpace, hc, ih hcs]

theorem dropWhile_eq_self_of_head (p : Char → Bool) (l : List Char)
    (h : l ≠ []) (hp : p (l.head h) = false) :
    List.dropWhile p l = l := by
  rcases List.exists_cons_of_ne_nil h with ⟨a, l2, rfl⟩
  simp only [List.head_cons] at hp
  simp [List.dropWhile_cons_of_neg, hp]

theorem trimSpace_surround (w1 t w2 : List Char)
    (hw1 : ∀ c ∈ w1, isGoSpace c = true)
    (hw2 : ∀ c ∈ w2, isGoSpace c = true)
    (ht : t ≠ [])
    (hh : isGoSpace (t.head ht) = false)
    (hl : isGoSpace (t.getLast ht) = false) :
    trimSpace (w1 ++ t ++ w2) = t := by
  unfold trimSpace
  have h1 : List.dropWhile isGoSpace (w1 ++ t ++ w2) = t ++ w2 := by
    rw [List.append_assoc, List.dropWhile_append_of_pos hw1]
    apply dropWhile_eq_self_of_head _ _ (by simp [ht])
    rw [List.head_append_left ht]
    exact hh
  rw [h1]
  have h2 : List.dropWhile isGoSpace (t ++ w2).reverse = t.reverse := by
    rw [List.reverse_append]
    rw [List.dropWhile_append_of_pos (fun c hc => hw2 c (List.mem_reverse.mp hc))]
    have htr : t.reverse ≠ [] := by simp [ht]
    apply dropWhile_eq_self_of_head _ _ htr
    rw [List.head_reverse]
    exact hl
  rw [h2, List.reverse_reverse]

/-! ## Claims about the Status Parser -/

/-- Claim C6: on every input string that does not split on the single space
character into exactly two tokens, or whose first token compared
case-insensitively is not `STATE:`, the parser fails with the
invalid-status-message error. -/
theorem parseStatusLine_invalid (s : List Char)
    (h : (splitOnSpace s).length ≠ 2 ∨
      goToUpper ((splitOnSpace s).headI) ≠ "STATE:".toList) :
    parseStatusLine s = .error .invalidStatusMessage := by
  rcases hs : splitOnSpace s with _ | ⟨t0, _ | ⟨t1, _ | ⟨t2, ts⟩⟩⟩
  · simp [parseStatusLine, hs]
  · simp [parseStatusLine, hs]
  · rw [hs] at h
    rcases h with h | h
    · simp at h
    · simp only [List.headI] at h
      simp only [parseStatusLine, hs]
      rw [if_neg h]
  · simp [parseStatusLine, hs]

/-- Witness for C6 at a concrete input: a one-token line. -/
theorem parseStatusLine_invalid_witness :
    parseStatusLine "HELLO".toList = .error .invalidStatusMessage :=
  parseStatusLine_invalid "HELLO".toList (Or.inl (by decide))

/-- Counterexample to claim C3 as stated: the line `STATE: init ` is of the
form `STATE: <token>` with surrounding whitespace (one trailing space)
around the token, yet the parser rejects it — the trailing space makes the
split on the space character produce three tokens. -/
theorem parseStatusLine_trailing_space_fails :
    parseStatusLine "STATE: init ".toList = .error .invalidStatusMessage := by
  rfl

/-- Claim C3 (amended): for every input of the form `<key> <token>` where
the key upper-cases to `STATE:` and the token carries arbitrary surrounding
whitespace none of which is the space character itself, the parser succeeds
and returns the token lower-cased, its surrounding whitespace trimmed. -/
theorem parseStatusLine_wellformed (k w1 t w2 : List Char)
    (hk : ' ' ∉ k)
    (hku : goToUpper k = "STATE:".toList)
    (hw1 : ∀ c ∈ w1, isGoSpace c = true ∧ c ≠ ' ')
    (hw2 : ∀ c ∈ w2, isGoSpace c = true ∧ c ≠ ' ')
    (ht : t ≠ [])
    (hts : ' ' ∉ t)
    (hh : isGoSpace (t.head ht) = false)
    (hl : isGoSpace (t.getLast ht) = false) :
    parseStatusLine (k ++ ' ' :: (w1 ++ t ++ w2)) = .ok (goToLower t) := by
  have hs : ' ' ∉ w1 ++ t ++ w2 := by
    intro hm
    rcases List.mem_append.mp hm with hm1 | hm2
    · rcases List.mem_append.mp hm1 with hma | hmb
      · exact (hw1 _ hma).2 rfl
      · exact hts hmb
    · exact (hw2 _ hm2).2 rfl
  have hsplit : splitOnSpace (k ++ ' ' :: (w1 ++ t ++ w2)) =
      [k, w1 ++ t ++ w2] := by
    rw [splitOnSpace_key _ _ hk, splitOnSpace_no_space _ hs]
  simp only [parseStatusLine, hsplit]
  rw [if_pos hku,
    trimSpace_surround w1 t w2 (fun c hc => (hw1 c hc).1)
      (fun c hc => (hw2 c hc).1) ht hh hl]

/-- Witness for the amended C3 at a concrete input: key `State:`, token
`Init` surrounded by a tab and a carriage return. -/
theorem parseStatusLine_wellformed_witness :
    parseStatusLine ("State:".toList ++ ' ' ::
        (['\x09'] ++ "Init".toList ++ ['\x0d'])) =
      .ok (goToLower "Init".toList) :=
  parseStatusLine_wellformed "State:".toList ['\x09'] "Init".toList ['\x0d']
    (by decide) (by decide) (by decide) (by decide) (by decide) (by decide)
    (by decide) (by decide)

/-! ## The Transfer Protocol Driver (`main`, lines 69-122)

The driver is modelled from the point where the connection is established
(line 75).  Its inputs are the two read results delivered by the server
(one chunk for the status frame, one for the acknowledgement frame), the
file path, the file content (whose length is what `fileInfo.Size()`
reports for an unchanged file), and one success flag per write step on the
buffered writer (header write, payload copy, terminator write, flush).

`sent` records the bytes accepted by the buffered writer by the write calls
that completed; on the success path the final flush delivers exactly these
bytes to the connection, and on the abort-before-header paths no byte was
ever handed to the writer, so nothing can reach the connection.

Every branch of `main` after the connection is established — each failure
branch and the success path alike — ends in a bare `return` from `main`,
so the process terminates with exit status 0 on every one of these paths;
`exitCode` records this per branch. -/

/-- The terminal outcome of one run of the protocol section of `main`, one
constructor per `return` site (lines 80-82, 84-87, 91-94, 97-101, 104-107,
110-113, 115-116, 117-120, and the success fall-through at line 121). -/
inductive Outcome : Type where
  | statusFailed : GoErr → Outcome
  | badState : List Char → Outcome
  | headerFailed : Outcome
  | copyFailed : Outcome
  | terminatorFailed : Outcome
  | flushFailed : Outcome
  | ackFailed : GoErr → Outcome
  | ackMismatch : List Char → Outcome
  | done : Outcome
deriving DecidableEq, Repr

/-- Result of one run of the driver. -/
structure RunResult : Type where
  outcome : Outcome
  sent : List Char
  exitCode : Nat
deriving DecidableEq, Repr

/-- `fmt.Sprintf("GCODE: %s:%d\n", inputFile, fileInfo.Size())`
(main.go line 89). -/
def headerLine (inputFile : List Char) (size : Nat) : List Char :=
  "GCODE: ".toList ++ inputFile ++ ":".toList ++ (Nat.repr size).toList ++
    [terminationCharacter]

/-- The protocol section of `main` (main.go lines 75-122): read and parse
the status frame, require state `init`, write the header, copy the payload,
write the terminator byte, flush, read the acknowledgement frame and
require it to equal `GCODE_ACK`. -/
def runTransfer (inputFile payload : List Char)
    (statusRead : Except GoErr (List Char))
    (headerOk copyOk termOk flushOk : Bool)
    (ackRead : Except GoErr (List Char)) : RunResult :=
  match getState statusRead with
  | .error e => ⟨.statusFailed e, [], 0⟩
  | .ok state =>
    if state = "init".toList then
      let header := headerLine inputFile payload.length
      if headerOk then
        if copyOk then
          if termOk then
            if flushOk then
              match readMessage ackRead with
              | .error e =>
                ⟨.ackFailed e, header ++ payload ++ [terminationCharacter], 0⟩
              | .ok msg =>
                if msg = "GCODE_ACK".toList then
                  ⟨.done, header ++ payload ++ [terminationCharacter], 0⟩
                else
                  ⟨.ackMismatch msg,
                    header ++ payload ++ [terminationCharacter], 0⟩
            else ⟨.flushFailed, header ++ payload ++ [terminationCharacter], 0⟩
          else ⟨.terminatorFailed, header ++ payload, 0⟩
        else ⟨.copyFailed, header, 0⟩
      else ⟨.headerFailed, [], 0⟩
    else ⟨.badState state, [], 0⟩


/-- A chunk made of a terminator-free prefix below the buffer limit, the
terminator, and arbitrary further bytes frames to exactly that prefix. -/
theorem readMessage_append_term (pre rest : List Char)
    (hp : terminationCharacter ∉ pre)
    (hlen : pre.length < messageBufferSize) :
    readMessage (.ok (pre ++ terminationCharacter :: rest)) = .ok pre := by
  have hc := collectUntilTerm_append_term pre rest hp
  simp [readMessage, hc, Nat.not_le.mpr hlen]

/-- Framing and parsing the literal status chunk `STATE: init` followed by
the terminator and any further bytes of the same read yields the state
token `init`. -/
theorem getState_init_chunk (rest : List Char) :
    getState (.ok ("STATE: init".toList ++ terminationCharacter :: rest)) =
      .ok "init".toList := by
  have h1 := readMessage_append_term "STATE: init".toList rest
    (by decide) (by decide)
  simp only [getState, h1]
  rfl

/-! ## Claims about the Transfer Protocol Driver -/

/-- Claim C1: when the server first delivers the frame `STATE: init` and,
after the full payload, the frame `GCODE_ACK`, and every write step
succeeds, the driver reports success, and the byte sequence it writes to
the connection is exactly the header line `GCODE: <path>:<size>` ended by
a line feed, followed immediately by the payload bytes unchanged, followed
by a single line-feed terminator byte, in that order. -/
theorem runTransfer_success (inputFile payload rest1 rest2 : List Char) :
    runTransfer inputFile payload
        (.ok ("STATE: init".toList ++ terminationCharacter :: rest1))
        true true true true
        (.ok ("GCODE_ACK".toList ++ terminationCharacter :: rest2)) =
      ⟨.done,
        headerLine inputFile payload.length ++ payload ++
          [terminationCharacter], 0⟩ := by
  have hack := readMessage_append_term "GCODE_ACK".toList rest2
    (by decide) (by decide)
  simp only [runTransfer, getState_init_chunk, hack]
  simp [List.append_assoc]

/-- Claim C7: whenever the parsed status token is not `init`, the driver
aborts without ever handing a single byte to the connection: no header
byte, no payload byte, and no terminator byte is sent. -/
theorem runTransfer_abort_before_header (inputFile payload : List Char)
    (statusRead : Except GoErr (List Char))
    (headerOk copyOk termOk flushOk : Bool)
    (ackRead : Except GoErr (List Char))
    (state : List Char)
    (hst : getState statusRead = .ok state)
    (hne : state ≠ "init".toList) :
    runTransfer inputFile payload statusRead headerOk copyOk termOk flushOk
      ackRead = ⟨.badState state, [], 0⟩ := by
  simp only [runTransfer, hst]
  rw [if_neg hne]

/-- Witness for C7 at a concrete input: the server reports
`STATE: running`. -/
theorem runTransfer_abort_before_header_witness :
    runTransfer "f".toList "ab".toList (.ok "STATE: running\x0a".toList)
      true true true true (.ok []) =
      ⟨.badState "running".toList, [], 0⟩ :=
  runTransfer_abort_before_header "f".toList "ab".toList
    (.ok "STATE: running\x0a".toList) true true true true (.ok [])
    "running".toList (by rfl) (by decide)

/-- Claim C8: after the header, the full payload and the terminator have
been sent and flushed, the driver reports success if and only if the
acknowledgement frame it reads equals the literal token `GCODE_ACK`; any
other frame content makes the run end in failure despite full payload
delivery. -/
theorem runTransfer_ack_decides (inputFile payload rest : List Char)
    (ackRead : Except GoErr (List Char)) (msg : List Char)
    (hack : readMessage ackRead = .ok msg) :
    ((runTransfer inputFile payload
        (.ok ("STATE: init".toList ++ terminationCharacter :: rest))
        true true true true ackRead).outcome = .done ↔
      msg = "GCODE_ACK".toList) ∧
    (runTransfer inputFile payload
        (.ok ("STATE: init".toList ++ terminationCharacter :: rest))
        true true true true ackRead).sent =
      headerLine inputFile payload.length ++ payload ++
        [terminationCharacter] := by
  simp only [runTransfer, getState_init_chunk, hack]
  by_cases hm : msg = "GCODE_ACK".toList
  · subst hm
    simp [List.append_assoc]
  · simp only [if_true]
    rw [if_neg hm]
    simp at hm
    simp [hm, List.append_assoc]

/-- Witness for C8 at a concrete input: the server acknowledges with
`DONE` instead of `GCODE_ACK` and the run does not report success. -/
theorem runTransfer_ack_decides_witness :
    ¬ (runTransfer "f".toList "ab".toList
        (.ok ("STATE: init".toList ++ terminationCharacter :: []))
        true true true true (.ok "DONE\x0a".toList)).outcome =
      Outcome.done := by
  intro h
  have hd := (runTransfer_ack_decides "f".toList "ab".toList []
      (.ok "DONE\x0a".toList) "DONE".toList (by rfl)).1.mp h
  exact absurd hd (by decide)

/-- Counterexample to claim C2 as stated: a failing run (the server
reports `STATE: running`, so the transfer aborts) on which the process
nevertheless terminates with completion signal 0 — every branch of
the protocol section of `main` ends in a bare `return`, never a non-zero
exit. -/
theorem runTransfer_failure_exit_zero :
    (runTransfer "f".toList "ab".toList (.ok "STATE: running\x0a".toList)
        true true true true (.ok "GCODE_ACK\x0a".toList)).outcome ≠
      Outcome.done ∧
    (runTransfer "f".toList "ab".toList (.ok "STATE: running\x0a".toList)
        true true true true (.ok "GCODE_ACK\x0a".toList)).exitCode = 0 :=
  ⟨by decide, by rfl⟩

/-- Claim C2 (amended): every run of the driver — failing or not —
terminates with completion signal 0, and there is no partial-success
outcome: the run reports success exactly when the whole sequence (status
frame parsed to `init`, header write, payload copy, terminator write,
flush, acknowledgement frame equal to `GCODE_ACK`) completes; otherwise
the transfer as a whole is reported as failed. -/
theorem runTransfer_all_or_nothing (inputFile payload : List Char)
    (statusRead : Except GoErr (List Char))
    (headerOk copyOk termOk flushOk : Bool)
    (ackRead : Except GoErr (List Char)) :
    (runTransfer inputFile payload statusRead headerOk copyOk termOk
      flushOk ackRead).exitCode = 0 ∧
    ((runTransfer inputFile payload statusRead headerOk copyOk termOk
        flushOk ackRead).outcome = .done ↔
      (getState statusRead = .ok "init".toList ∧ headerOk = true ∧
        copyOk = true ∧ termOk = true ∧ flushOk = true ∧
        readMessage ackRead = .ok "GCODE_ACK".toList)) := by
  rcases hg : getState statusRead with e | st
  · simp [runTransfer, hg]
  · by_cases hst : st = "init".toList
    · subst hst
      rcases ha : readMessage ackRead with e | msg
      · cases headerOk <;> cases copyOk <;> cases termOk <;>
          cases flushOk <;> (simp only [runTransfer, hg, ha]; simp)
      · by_cases hm : msg = "GCODE_ACK".toList
        · subst hm
          cases headerOk <;> cases copyOk <;> cases termOk <;>
            cases flushOk <;> (simp only [runTransfer, hg, ha]; simp)
        · cases headerOk <;> cases copyOk <;> cases termOk <;>
            cases flushOk <;>
            (simp only [runTransfer, hg, ha]; simp at hm; simp [hm])
    · simp only [runTransfer, hg]
      rw [if_neg hst]
      simp at hst
      simp [hst]
